import Mathlib

/-!
Verification of the redis-rs repository core: the wire codec
(src/lib.rs, `RedisType` with `FromStr` and `Display`) and the command
engine and store (src/bin/server.rs, `State`, the `COMMANDS` table and
the expiration sweeper task in `main`).

Text is modelled as `List Char`.  Machine integers (`i64`) are modelled
as `Int` with explicit range checks and wrapping where the source
performs native arithmetic.  `SystemTime` instants are modelled as `Nat`
milliseconds since the epoch; `SystemTime::now()` becomes an explicit
`now : Nat` parameter of the handlers that read the clock.  Fallible
code returns explicit result types; a Rust panic (a failing `unwrap` or
an out-of-bounds slice) is the distinguished outcome `crash`.
-/

/-- The CRLF line terminator used throughout the wire protocol. -/
def crlf : List Char := ['\r', '\n']

/-- Wire value tree, mirroring `enum RedisType` in src/lib.rs. -/
inductive RedisType where
  | NullString
  | NullArray
  | String (value : List Char)
  | Error (value : List Char)
  | Integer (value : Int)
  | Array (value : List RedisType)

/-- Parse error taxonomy, mirroring `enum RedisTypeParseError` in src/lib.rs. -/
inductive RedisTypeParseError where
  | MissingPrefix
  | InvalidPrefix
  | InvalidSuffix
  | InvalidArrayLength
  | LeftOverData
deriving DecidableEq

/-- Result of the inner `parse` function of `RedisType::from_str`:
either a value together with the unconsumed remainder, a parse error,
or a Rust panic (`crash`). -/
inductive PResult where
  | ok (rest : List Char) (v : RedisType)
  | err (e : RedisTypeParseError)
  | crash

/-- Result of the element loop that parses the members of an array. -/
inductive ElemsResult where
  | elOk (rest : List Char) (vs : List RedisType)
  | elErr (e : RedisTypeParseError)
  | elCrash

/-- Result of `RedisType::from_str` as a whole: a value, an error, or a panic. -/
inductive FromStrResult where
  | ok (v : RedisType)
  | err (e : RedisTypeParseError)
  | crash

/-- Split a character sequence at the first occurrence of CRLF,
mirroring `s.find("\r\n")` followed by taking `&s[..crlf]` and
`&s[crlf + 2..]`.  Returns `none` when no CRLF occurs. -/
def splitCrlf : List Char → Option (List Char × List Char)
  | [] => none
  | c :: rest =>
    if c = '\r' ∧ rest.head? = some '\n' then some ([], rest.tail)
    else (splitCrlf rest).map (fun p => (c :: p.1, p.2))

/-- Is `c` an ASCII decimal digit, as accepted by Rust's `i64::from_str`. -/
def isDigitChar (c : Char) : Bool := 48 ≤ c.toNat && c.toNat ≤ 57

/-- Accumulate the decimal value of a digit sequence; `none` when a
non-digit occurs.  The accumulator starts at 0. -/
def digitsVal : List Char → Nat → Option Nat
  | [], acc => some acc
  | c :: rest, acc =>
    if isDigitChar c then digitsVal rest (acc * 10 + (c.toNat - 48)) else none

/-- Digit sequence (after an optional sign) to an `i64` value with the
range check Rust's `from_str` performs; `neg` records a leading minus. -/
def parseDigitsSigned (ds : List Char) (neg : Bool) : Option Int :=
  if ds.isEmpty then none
  else
    match digitsVal ds 0 with
    | none => none
    | some n =>
      if neg then (if n ≤ 2 ^ 63 then some (-(n : Int)) else none)
      else (if n ≤ 2 ^ 63 - 1 then some (n : Int) else none)

/-- Rust's `str::parse::<i64>`: optional sign, one or more ASCII digits,
signed 64-bit range check. -/
def parseI64 (s : List Char) : Option Int :=
  match s with
  | [] => none
  | c :: rest =>
    if c = '-' then parseDigitsSigned rest true
    else if c = '+' then parseDigitsSigned rest false
    else parseDigitsSigned s false

/-- Decimal digit character for a value below ten (Rust `Display` of integers). -/
def digitChar : Nat → Char
  | 0 => '0'
  | 1 => '1'
  | 2 => '2'
  | 3 => '3'
  | 4 => '4'
  | 5 => '5'
  | 6 => '6'
  | 7 => '7'
  | 8 => '8'
  | _ => '9'

/-- Fuelled decimal printer for naturals; the fuel only serves
termination and `natRepr` always supplies enough. -/
def natReprAux : Nat → Nat → List Char
  | 0, _ => []
  | fuel + 1, n =>
    if n < 10 then [digitChar n]
    else natReprAux fuel (n / 10) ++ [digitChar (n % 10)]

/-- Decimal representation of a natural number, as Rust's `Display` prints it. -/
def natRepr (n : Nat) : List Char := natReprAux (n + 1) n

/-- Decimal representation of a signed integer, as Rust's `Display` prints it. -/
def intRepr (n : Int) : List Char :=
  if n < 0 then '-' :: natRepr (-n).toNat else natRepr n.toNat

/-- Rust `char::is_control`: the Unicode Cc category,
U+0000 through U+001F and U+007F through U+009F. -/
def isCtrl (c : Char) : Bool := c.toNat ≤ 0x1F || (0x7F ≤ c.toNat && c.toNat ≤ 0x9F)

/-- Does a string payload force the bulk-string encoding: it contains a
control character, a carriage return or a line feed
(the condition of `Display for RedisType` on the `String` arm). -/
def needsBulk (v : List Char) : Bool :=
  v.any (fun c => isCtrl c || c = '\r' || c = '\n')

mutual

/-- Serializer, mirroring `impl Display for RedisType` in src/lib.rs.
`alwaysBulk` is the process-wide `ALWAYS_USE_BULK_STRING` toggle
(default `false` in the server). -/
def serialize (alwaysBulk : Bool) : RedisType → List Char
  | .NullString => "$-1\r\n".data
  | .NullArray => "*-1\r\n".data
  | .String v =>
    if v.length = 0 then "$0\r\n\r\n".data
    else if alwaysBulk || needsBulk v then
      '$' :: natRepr v.length ++ crlf ++ v ++ crlf
    else '+' :: v ++ crlf
  | .Error v => '-' :: v ++ crlf
  | .Integer n => ':' :: intRepr n ++ crlf
  | .Array vs => '*' :: natRepr vs.length ++ crlf ++ serializeList alwaysBulk vs

/-- Serialization of the elements of an array, in order. -/
def serializeList (alwaysBulk : Bool) : List RedisType → List Char
  | [] => []
  | v :: vs => serialize alwaysBulk v ++ serializeList alwaysBulk vs

end

/-- The loop in the `'*'` arm of `parse` that parses `len` further
values in sequence, collecting them into an array. -/
def parseElemsWith (p : List Char → PResult) : Nat → List Char → ElemsResult
  | 0, s => .elOk s []
  | n + 1, s =>
    match p s with
    | .ok rest v =>
      match parseElemsWith p n rest with
      | .elOk rest2 vs => .elOk rest2 (v :: vs)
      | r => r
    | .err e => .elErr e
    | .crash => .elCrash

/-- Dispatch of `parse` on the prefix character `c`, given the payload
line (without the prefix), the remainder after the first CRLF, and the
parser `p` used for the elements of an array. -/
def parseLine (p : List Char → PResult) (c : Char) (payload rest : List Char) : PResult :=
  if c = '+' then .ok rest (.String payload)
  else if c = '-' then .ok rest (.Error payload)
  else if c = ':' then
    match parseI64 payload with
    | some n => .ok rest (.Integer n)
    | none =>
      -- `String::from(payload).parse::<i64>().unwrap()` panics
      .crash
  else if c = '*' then
    match parseI64 payload with
    | none => .crash
    | some len =>
      if len < 0 then .ok rest .NullArray
      else
        match parseElemsWith p len.toNat rest with
        | .elOk rest2 vs => .ok rest2 (.Array vs)
        | .elErr e => .err e
        | .elCrash => .crash
  else if c = '$' then
    match parseI64 payload with
    | none => .crash
    | some len =>
      if len < 0 then .ok rest .NullString
      else if len.toNat + 2 ≤ rest.length then
        .ok (rest.drop (len.toNat + 2)) (.String (rest.take len.toNat))
      else
        -- `&rest[0..len]` or `&rest[len + 2..]` is out of bounds
        .crash
  else .err .InvalidPrefix

/-- The inner recursive `parse` function of `RedisType::from_str`.
The fuel argument only bounds the recursion depth; `fromStr` supplies
`s.length + 1`, which is always sufficient because every recursive call
consumes at least the prefix line of its input. -/
def parseAux : Nat → List Char → PResult
  | 0, _ => .crash
  | fuel + 1, s =>
    if s.isEmpty then .err .MissingPrefix
    else
      match splitCrlf s with
      | none => .err .InvalidSuffix
      | some (line, rest) =>
        match line with
        | [] =>
          -- the first CRLF is at position 0, so the slice `&s[1..0]` panics
          .crash
        | c :: payload => parseLine (parseAux fuel) c payload rest

/-- `RedisType::from_str`: run `parse` on the whole input and require
that nothing is left over. -/
def fromStr (s : List Char) : FromStrResult :=
  match parseAux (s.length + 1) s with
  | .ok rest v => if rest.isEmpty then .ok v else .err .LeftOverData
  | .err e => .err e
  | .crash => .crash

mutual

/-- Well-formedness of a wire value as the Rust types guarantee it:
integer payloads fit in `i64`, and string and array payload lengths are
representable (a Rust `String` or `Vec` never holds `2^63` or more
elements, so `len() as i64` cannot wrap). -/
def wfWire : RedisType → Bool
  | .NullString => true
  | .NullArray => true
  | .String v => decide (v.length < 2 ^ 63)
  | .Error _ => true
  | .Integer n => decide (-(2 ^ 63) ≤ n ∧ n < 2 ^ 63)
  | .Array vs => decide (vs.length < 2 ^ 63) && wfList vs

/-- Well-formedness of every element of a list of wire values. -/
def wfList : List RedisType → Bool
  | [] => true
  | v :: vs => wfWire v && wfList vs

end

mutual

/-- No `Error` payload anywhere in the value contains the CRLF sequence.
This is the extra condition under which serialization round-trips: an
error is serialized as `-payload\r\n` and the parser cuts the payload at
the first CRLF, so a CRLF inside an error payload is not recoverable. -/
def errNoCrlf : RedisType → Bool
  | .Error v => (splitCrlf v).isNone
  | .Array vs => errNoCrlfList vs
  | _ => true

/-- `errNoCrlf` for every element of a list of wire values. -/
def errNoCrlfList : List RedisType → Bool
  | [] => true
  | v :: vs => errNoCrlf v && errNoCrlfList vs

end

/-- Association-list lookup, modelling `HashMap::get` on the keystore. -/
def ksGet (m : List (List Char × List Char)) (k : List Char) : Option (List Char) :=
  match m with
  | [] => none
  | (k2, v) :: rest => if k2 = k then some v else ksGet rest k

/-- Upsert, modelling `HashMap::insert`: overwrite the binding when the
key is already present, append it otherwise. -/
def ksInsert (m : List (List Char × List Char)) (k v : List Char) :
    List (List Char × List Char) :=
  match m with
  | [] => [(k, v)]
  | (k2, v2) :: rest => if k2 = k then (k, v) :: rest else (k2, v2) :: ksInsert rest k v

/-- Removal, modelling `HashMap::remove`: the old value (when present)
together with the map without that binding. -/
def ksRemove (m : List (List Char × List Char)) (k : List Char) :
    Option (List Char) × List (List Char × List Char) :=
  match m with
  | [] => (none, [])
  | (k2, v2) :: rest =>
    if k2 = k then (some v2, rest)
    else
      match ksRemove rest k with
      | (o, r) => (o, (k2, v2) :: r)

/-- Membership, modelling `HashMap::contains_key`. -/
def ksContains (m : List (List Char × List Char)) (k : List Char) : Bool :=
  (ksGet m k).isSome

/-- Insertion into the expiration index, modelling
`PriorityQueue::push` of the priority_queue crate: when the key is
already present its priority is replaced, otherwise a new entry is
added.  At most one entry per key. -/
def pqPush (q : List (List Char × Nat)) (k : List Char) (t : Nat) :
    List (List Char × Nat) :=
  match q with
  | [] => [(k, t)]
  | (k2, t2) :: rest => if k2 = k then (k, t) :: rest else (k2, t2) :: pqPush rest k t

/-- Removal of a key's entry, modelling `PriorityQueue::remove`:
a no-op when the key has no entry. -/
def pqRemoveKey (q : List (List Char × Nat)) (k : List Char) : List (List Char × Nat) :=
  match q with
  | [] => []
  | (k2, t2) :: rest => if k2 = k then rest else (k2, t2) :: pqRemoveKey rest k

/-- The entry `PriorityQueue::peek` of the priority_queue crate returns:
the entry with the GREATEST priority (the crate is a max-priority
queue), here the greatest expiration instant. -/
def pqPeek (q : List (List Char × Nat)) : Option (List Char × Nat) :=
  match q with
  | [] => none
  | e :: rest =>
    match pqPeek rest with
    | none => some e
    | some e2 => if e2.2 > e.2 then some e2 else some e

/-- `PriorityQueue::pop`: remove and return the entry `peek` yields. -/
def pqPop (q : List (List Char × Nat)) :
    Option ((List Char × Nat) × List (List Char × Nat)) :=
  match pqPeek q with
  | none => none
  | some e => some (e, pqRemoveKey q e.1)

/-- The shared server state, mirroring `struct State` in
src/bin/server.rs: the keystore `HashMap<String, String>` and the
expiration index `ttl : PriorityQueue<String, SystemTime>`. -/
structure State where
  keystore : List (List Char × List Char)
  ttl : List (List Char × Nat)

/-- Outcome of one command handler: a reply value, an error message
(sent back as an `Error` reply by the connection loop), or a panic. -/
inductive HOut where
  | ok (v : RedisType)
  | err (m : List Char)
  | crash

/-- Coercion of one argument to a string, the body of the
`get_string_arg!` macro: a `String` as-is, an `Integer` as its decimal
text, anything else an error. -/
def coerceString : RedisType → Except (List Char) (List Char)
  | .String v => .ok v
  | .Integer n => .ok (intRepr n)
  | other =>
    .error ("Attempted to use ".data ++ serialize false other ++ " as a string".data)

/-- Coercion of one argument to an `i64`, the body of the
`get_integer_arg!` macro: an `Integer` as-is, a `String` parsed as a
signed 64-bit decimal, anything else (or a parse failure) an error. -/
def coerceInt : RedisType → Except (List Char) Int
  | .String v =>
    match parseI64 v with
    | some n => .ok n
    | none =>
      .error ("Attempted to use ".data ++ serialize false (.String v)
        ++ " as an integer".data)
  | .Integer n => .ok n
  | other =>
    .error ("Attempted to use ".data ++ serialize false other ++ " as an integer".data)

/-- `get_string_arg!(args, i)`: bounds check, then string coercion. -/
def getStringArg (args : List RedisType) (i : Nat) : Except (List Char) (List Char) :=
  match args.drop i with
  | [] => .error ("Not enough args".data)
  | a :: _ => coerceString a

/-- `get_integer_arg!(args, i)`: bounds check, then integer coercion. -/
def getIntegerArg (args : List RedisType) (i : Nat) : Except (List Char) Int :=
  match args.drop i with
  | [] => .error ("Not enough args".data)
  | a :: _ => coerceInt a

/-- Rust `u8::to_ascii_uppercase`, applied characterwise by
`str::to_ascii_uppercase`. -/
def upperChar (c : Char) : Char :=
  if 'a' ≤ c ∧ c ≤ 'z' then Char.ofNat (c.toNat - 32) else c

/-- ASCII uppercasing of a string, for option-keyword matching. -/
def listUpper (s : List Char) : List Char := s.map upperChar

/-- Interpretation of `value as u64` on an `i64` value: two's-complement
reinterpretation. -/
def asU64 (v : Int) : Nat := (v % (2 ^ 64 : Int)).toNat

/-- Two's-complement wraparound of an unbounded integer into the signed
64-bit range, the release-mode behavior of native `i64` arithmetic. -/
def wrapI64 (n : Int) : Int := (n + 2 ^ 63) % 2 ^ 64 - 2 ^ 63

/-- Lower-case hexadecimal digit, for the unicode escapes of
`char::escape_debug`. -/
def hexDigitChar (n : Nat) : Char :=
  if n < 10 then digitChar n
  else if n = 10 then 'a'
  else if n = 11 then 'b'
  else if n = 12 then 'c'
  else if n = 13 then 'd'
  else if n = 14 then 'e'
  else 'f'

/-- Fuelled lower-case hexadecimal printer for naturals; `hexRepr`
always supplies enough fuel. -/
def hexReprAux : Nat → Nat → List Char
  | 0, _ => []
  | fuel + 1, n =>
    if n < 16 then [hexDigitChar n]
    else hexReprAux fuel (n / 16) ++ [hexDigitChar (n % 16)]

/-- Lower-case hexadecimal representation of a natural number. -/
def hexRepr (n : Nat) : List Char := hexReprAux (n + 1) n

/-- One character as Rust's derived `Debug` prints it inside a quoted
string literal (`char::escape_debug`, without the single-quote escape
that `str`'s `Debug` does not apply): named escapes for NUL, tab,
carriage return, line feed, backslash and double quote; other control
characters as a `\u` escape in lower-case hex; remaining characters
unchanged. -/
def escapeDebugChar (c : Char) : List Char :=
  if c = Char.ofNat 0 then ['\\', '0']
  else if c = '\t' then ['\\', 't']
  else if c = '\r' then ['\\', 'r']
  else if c = '\n' then ['\\', 'n']
  else if c = '\\' then ['\\', '\\']
  else if c = '"' then ['\\', '"']
  else if isCtrl c then
    ('\\' :: 'u' :: Char.ofNat 0x7b :: hexRepr c.toNat) ++ [Char.ofNat 0x7d]
  else [c]

mutual

/-- Rust's derived `Debug` formatting of a `RedisType`, as
`format!("{:?}", ...)` prints it in the non-alternate form, e.g.
`String ... value: "NX" ...` between braces. -/
def debugFmt : RedisType → List Char
  | .NullString => "NullString".data
  | .NullArray => "NullArray".data
  | .String v =>
    "String ".data ++ Char.ofNat 0x7b :: " value: \"".data
      ++ (v.map escapeDebugChar).flatten ++ "\" ".data ++ [Char.ofNat 0x7d]
  | .Error v =>
    "Error ".data ++ Char.ofNat 0x7b :: " value: \"".data
      ++ (v.map escapeDebugChar).flatten ++ "\" ".data ++ [Char.ofNat 0x7d]
  | .Integer n =>
    "Integer ".data ++ Char.ofNat 0x7b :: " value: ".data
      ++ intRepr n ++ " ".data ++ [Char.ofNat 0x7d]
  | .Array vs =>
    "Array ".data ++ Char.ofNat 0x7b :: " value: [".data
      ++ debugFmtList vs ++ "] ".data ++ [Char.ofNat 0x7d]

/-- Debug formatting of the elements of an array, comma-separated as
`Vec`'s `Debug` prints them. -/
def debugFmtList : List RedisType → List Char
  | [] => []
  | [v] => debugFmt v
  | v :: vs => debugFmt v ++ ", ".data ++ debugFmtList vs

end

/-- The checked addition inside `SystemTime + Duration` (and
`UNIX_EPOCH + Duration`): `Add<Duration> for SystemTime` calls
`checked_add(...).expect(...)` and PANICS when the resulting instant
cannot be represented by the underlying `timespec`, whose seconds
field is a signed 64-bit integer.  Instants here are milliseconds, so
the sum is unrepresentable exactly when it reaches `2^63` seconds;
`none` models the panic. -/
def sysTimeAdd (base durMs : Nat) : Option Nat :=
  if (base + durMs) / 1000 < 2 ^ 63 then some (base + durMs) else none

/-- The expiry-clause interpretation shared by `get_expiration!`:
`EX`/`PX` are relative to `now`, `EXAT`/`PXAT` absolute
(`UNIX_EPOCH`-based), with the keyword already uppercased and the
numeric slot value given.  Instants are milliseconds since the epoch.
`none` models the overflow panic of the `SystemTime + Duration`
addition (raised e.g. by `EX -1`, whose `value as u64` is `2^64 - 1`
seconds); callers dispatch behind `isExpiryKeyword`, so the final
non-keyword arm is never reached. -/
def expiryInstant (now : Nat) (u : List Char) (v : Int) : Option Nat :=
  if u = "EX".data then sysTimeAdd now (asU64 v * 1000)
  else if u = "PX".data then sysTimeAdd now (asU64 v)
  else if u = "EXAT".data then sysTimeAdd 0 (asU64 v * 1000)
  else if u = "PXAT".data then sysTimeAdd 0 (asU64 v)
  else none

/-- Is `u` (already uppercased) one of the four expiry keywords. -/
def isExpiryKeyword (u : List Char) : Bool :=
  u = "EX".data || u = "PX".data || u = "EXAT".data || u = "PXAT".data

/-- Result of `GETEX`'s option handling: the persist flag and
expiration instant, a validation error, or a panic raised inside the
expiry-clause time arithmetic. -/
inductive GetexOpts where
  | ok (persist : Bool) (expiration : Option Nat)
  | err (m : List Char)
  | crash

/-- The `GETEX` handler.  Mirrors the source faithfully, including the
`state.keystore.remove(&key)` at the end (the source removes the value
entry rather than reading it); an overflowing expiry addition panics
before any store mutation. -/
def getex (now : Nat) (st : State) (args : List RedisType) : HOut × State :=
  if args.length < 1 then
    (.err ("Expected at least 1 args, got ".data ++ natRepr args.length), st)
  else
    match getStringArg args 0 with
    | .error e => (.err e, st)
    | .ok key =>
      let opts : GetexOpts :=
        if args.length > 1 then
          match getStringArg args 1 with
          | .error e => .err e
          | .ok s1 =>
            let u := listUpper s1
            if u = "PERSIST".data then .ok true none
            else if isExpiryKeyword u then
              match getIntegerArg args 2 with
              | .error e => .err e
              | .ok v =>
                match expiryInstant now u v with
                | some t => .ok false (some t)
                | none => .crash
            else .err ("Invalid argument".data)
        else .ok false none
      match opts with
      | .err e => (.err e, st)
      | .crash => (.crash, st)
      | .ok persist expiration =>
        if persist && expiration.isSome then
          (.err ("Cannot set multiple of PERSIST, EX, PX, EXAT, PXAT".data), st)
        else
          let st1 :=
            match expiration with
            | some t => { st with ttl := pqPush st.ttl key t }
            | none => if persist then { st with ttl := pqRemoveKey st.ttl key } else st
          match ksRemove st1.keystore key with
          | (some v, ks2) => (.ok (.String v), { st1 with keystore := ks2 })
          | (none, ks2) => (.ok .NullString, { st1 with keystore := ks2 })

/-- The `GETRANGE` handler.  Both indices are clamped into
`[0, len - 1]` and the slice `value[start..end]` excludes `end`; when
the stored value is empty the clamped indices are `-1` and the cast to
`usize` sends the slice out of bounds (a panic). -/
def getrange (st : State) (args : List RedisType) : HOut × State :=
  if args.length ≠ 3 then
    (.err ("Expected 3 args, got ".data ++ natRepr args.length), st)
  else
    match getStringArg args 0 with
    | .error e => (.err e, st)
    | .ok key =>
      match getIntegerArg args 1 with
      | .error e => (.err e, st)
      | .ok start =>
        match getIntegerArg args 2 with
        | .error e => (.err e, st)
        | .ok stop =>
          match ksGet st.keystore key with
          | some value =>
            let len : Int := value.length
            let start1 := min (max start 0) (len - 1)
            let stop1 := min (max stop 0) (len - 1)
            if start1 > stop1 then (.ok (.String []), st)
            else if start1 < 0 then (.crash, st)
            else
              (.ok (.String ((value.drop start1.toNat).take (stop1 - start1).toNat)), st)
          | none => (.ok .NullString, st)

/-- The `GETSET` handler: unconditional overwrite returning the old
value; the expiration index is not touched. -/
def getset (st : State) (args : List RedisType) : HOut × State :=
  if args.length ≠ 2 then
    (.err ("Expected 2 args, got ".data ++ natRepr args.length), st)
  else
    match getStringArg args 0 with
    | .error e => (.err e, st)
    | .ok key =>
      match getStringArg args 1 with
      | .error e => (.err e, st)
      | .ok value =>
        let old := ksGet st.keystore key
        let st1 := { st with keystore := ksInsert st.keystore key value }
        match old with
        | some v => (.ok (.String v), st1)
        | none => (.ok .NullString, st1)

/-- The `SETNX` handler: insert only when absent, reply 1/0; the
expiration index is not touched. -/
def setnx (st : State) (args : List RedisType) : HOut × State :=
  if args.length ≠ 2 then
    (.err ("Expected 2 args, got ".data ++ natRepr args.length), st)
  else
    match getStringArg args 0 with
    | .error e => (.err e, st)
    | .ok key =>
      match getStringArg args 1 with
      | .error e => (.err e, st)
      | .ok value =>
        if ksContains st.keystore key then (.ok (.Integer 0), st)
        else (.ok (.Integer 1), { st with keystore := ksInsert st.keystore key value })

/-- The `APPEND` handler: concatenate onto the existing value (insert
when absent) and reply with the new length; the expiration index is not
touched.  The final `get(&key).unwrap()` cannot fail because the key
was just written. -/
def append (st : State) (args : List RedisType) : HOut × State :=
  if args.length ≠ 2 then
    (.err ("Expected 2 args, got ".data ++ natRepr args.length), st)
  else
    match getStringArg args 0 with
    | .error e => (.err e, st)
    | .ok key =>
      match getStringArg args 1 with
      | .error e => (.err e, st)
      | .ok value =>
        let ks2 :=
          match ksGet st.keystore key with
          | some current => ksInsert st.keystore key (current ++ value)
          | none => ksInsert st.keystore key value
        match ksGet ks2 key with
        | some v => (.ok (.Integer v.length), { st with keystore := ks2 })
        | none => (.crash, { st with keystore := ks2 })

/-- The pair loop of `MSET`: coerce key and value at indices i, i+1 and
insert, stepping by two; an odd trailing argument coerces the key and
then fails the bounds check of `get_string_arg!(args, i + 1)`. -/
def msetLoop (st : State) : List RedisType → HOut × State
  | [] => (.ok (.String ("OK".data)), st)
  | [kArg] =>
    match coerceString kArg with
    | .error e => (.err e, st)
    | .ok _ => (.err ("Not enough args".data), st)
  | kArg :: vArg :: rest =>
    match coerceString kArg with
    | .error e => (.err e, st)
    | .ok key =>
      match coerceString vArg with
      | .error e => (.err e, st)
      | .ok value => msetLoop { st with keystore := ksInsert st.keystore key value } rest

/-- The `MSET` handler: arity check, then the pair loop; the expiration
index is not touched. -/
def mset (st : State) (args : List RedisType) : HOut × State :=
  if args.length < 2 then
    (.err ("Expected at least 2 args, got ".data ++ natRepr args.length), st)
  else msetLoop st args

/-- The first loop of `MSETNX`: walk the keys (every second argument)
and report whether any is already present. -/
def msetnxCheck (ks : List (List Char × List Char)) : List RedisType → Except (List Char) Bool
  | [] => .ok false
  | [kArg] =>
    match coerceString kArg with
    | .error e => .error e
    | .ok key => .ok (ksContains ks key)
  | kArg :: _ :: rest =>
    match coerceString kArg with
    | .error e => .error e
    | .ok key => if ksContains ks key then .ok true else msetnxCheck ks rest

/-- The second loop of `MSETNX`: insert every pair, replying 1. -/
def msetnxInsert (st : State) : List RedisType → HOut × State
  | [] => (.ok (.Integer 1), st)
  | [kArg] =>
    match coerceString kArg with
    | .error e => (.err e, st)
    | .ok _ => (.err ("Not enough args".data), st)
  | kArg :: vArg :: rest =>
    match coerceString kArg with
    | .error e => (.err e, st)
    | .ok key =>
      match coerceString vArg with
      | .error e => (.err e, st)
      | .ok value =>
        msetnxInsert { st with keystore := ksInsert st.keystore key value } rest

/-- The `MSETNX` handler: reply 0 without writing when any key exists,
otherwise insert all pairs and reply 1; the expiration index is not
touched. -/
def msetnx (st : State) (args : List RedisType) : HOut × State :=
  if args.length < 2 then
    (.err ("Expected at least 2 args, got ".data ++ natRepr args.length), st)
  else
    match msetnxCheck st.keystore args with
    | .error e => (.err e, st)
    | .ok true => (.ok (.Integer 0), st)
    | .ok false => msetnxInsert st args

/-- Result of the `SET` option loop: the collected flags and expiration
instant, a validation error, or a panic raised inside the expiry-clause
time arithmetic. -/
inductive SetOpts where
  | ok (nx xx keepttl get : Bool) (expiration : Option Nat)
  | err (m : List Char)
  | crash

/-- The option loop of `SET` over the arguments after key and value:
`NX`, `XX`, `KEEPTTL` and `GET` flags, or an expiry clause consuming a
second slot; anything else is an error (formatted with the argument's
`Debug` form, as `format!` with `a` does in the source).  Yields the
collected flags and the (last) expiration instant; an overflowing
expiry addition is the panic outcome. -/
def setLoop (now : Nat) :
    List RedisType → Bool → Bool → Bool → Bool → Option Nat → SetOpts
  | [], nx, xx, keepttl, get, expiration => .ok nx xx keepttl get expiration
  | a :: rest, nx, xx, keepttl, get, expiration =>
    match coerceString a with
    | .error e => .err e
    | .ok sa =>
      let u := listUpper sa
      if u = "NX".data then setLoop now rest true xx keepttl get expiration
      else if u = "XX".data then setLoop now rest nx true keepttl get expiration
      else if u = "KEEPTTL".data then setLoop now rest nx xx true get expiration
      else if u = "GET".data then setLoop now rest nx xx keepttl true expiration
      else if isExpiryKeyword u then
        match rest with
        | [] => .err ("Not enough args".data)
        | b :: rest2 =>
          match coerceInt b with
          | .error e => .err e
          | .ok v =>
            match expiryInstant now u v with
            | some t => setLoop now rest2 nx xx keepttl get (some t)
            | none => .crash
      else .err ("Unexpected parameter: ".data ++ debugFmt a)

/-- Continuation of the `SET` handler after the option loop.  Mirrors
the source order faithfully: option conflicts are checked first, then
the expiration index is updated (push, keep, or remove), and only AFTER
that the `NX`/`XX` aborts return the null string; on a proceeding write
the `GET` reply is read before the insert. -/
def setFinish (st : State) (key value : List Char)
    (nx xx keepttl get : Bool) (expiration : Option Nat) : HOut × State :=
  if nx && xx then (.err ("SET: Cannot set both NX and XX".data), st)
  else if keepttl && expiration.isSome then
    (.err ("SET: Cannot set more than one of EX/PX/EXAT/PXAT/KEEPTTL".data), st)
  else
    let st1 :=
      match expiration with
      | some t => { st with ttl := pqPush st.ttl key t }
      | none =>
        if keepttl then st else { st with ttl := pqRemoveKey st.ttl key }
    if nx && ksContains st1.keystore key then (.ok .NullString, st1)
    else if xx && !ksContains st1.keystore key then (.ok .NullString, st1)
    else
      let result :=
        if get then
          match ksGet st1.keystore key with
          | some old => HOut.ok (.String old)
          | none => HOut.ok .NullString
        else HOut.ok (.String ("OK".data))
      (result, { st1 with keystore := ksInsert st1.keystore key value })

/-- The `SET` handler: arity check, key and value coercion, the option
loop, then the continuation above; a panic in the loop's expiry
arithmetic aborts the handler. -/
def setCmd (now : Nat) (st : State) (args : List RedisType) : HOut × State :=
  if args.length < 2 then
    (.err ("Expected at least 2 args, got ".data ++ natRepr args.length), st)
  else
    match getStringArg args 0 with
    | .error e => (.err e, st)
    | .ok key =>
      match getStringArg args 1 with
      | .error e => (.err e, st)
      | .ok value =>
        match setLoop now (args.drop 2) false false false false none with
        | .err e => (.err e, st)
        | .crash => (.crash, st)
        | .ok nx xx keepttl get expiration =>
          setFinish st key value nx xx keepttl get expiration

/-- The `INCR` handler.  The increment `value + 1` is native `i64`
arithmetic; in release builds it wraps (modelled by `wrapI64`; in debug
builds it would abort instead — in neither build mode is an overflow
surfaced as an `Error` reply). -/
def incr (st : State) (args : List RedisType) : HOut × State :=
  if args.length ≠ 1 then
    (.err ("Expected 1 args, got ".data ++ natRepr args.length), st)
  else
    match getStringArg args 0 with
    | .error e => (.err e, st)
    | .ok key =>
      match ksGet st.keystore key with
      | some current =>
        match parseI64 current with
        | some value =>
          let nv := wrapI64 (value + 1)
          (.ok (.Integer nv), { st with keystore := ksInsert st.keystore key (intRepr nv) })
        | none => (.err ("Value is not an integer or out of range".data), st)
      | none => (.ok (.Integer 1), { st with keystore := ksInsert st.keystore key ("1".data) })

/-- The `DECR` handler, with the same native-arithmetic caveat as `INCR`. -/
def decr (st : State) (args : List RedisType) : HOut × State :=
  if args.length ≠ 1 then
    (.err ("Expected 1 args, got ".data ++ natRepr args.length), st)
  else
    match getStringArg args 0 with
    | .error e => (.err e, st)
    | .ok key =>
      match ksGet st.keystore key with
      | some current =>
        match parseI64 current with
        | some value =>
          let nv := wrapI64 (value - 1)
          (.ok (.Integer nv), { st with keystore := ksInsert st.keystore key (intRepr nv) })
        | none => (.err ("Value is not an integer or out of range".data), st)
      | none =>
        (.ok (.Integer (-1)), { st with keystore := ksInsert st.keystore key ("-1".data) })

/-- The inner eviction loop of the sweeper task in `main`: while the
entry `peek` yields (the MAXIMUM-instant entry of the priority_queue
crate's max-queue) has instant strictly before `now`, pop it and remove
that key from the keystore.  The fuel argument only serves termination;
`sweepCycle` supplies one unit per queue entry plus one, which is
always enough because every iteration pops an entry. -/
def sweepStep (now : Nat) : Nat → State → State
  | 0, st => st
  | fuel + 1, st =>
    let evict :=
      match pqPeek st.ttl with
      | some e => decide (e.2 < now)
      | none => false
    if evict then
      match pqPop st.ttl with
      | some ((key, _), ttl2) =>
        sweepStep now fuel { keystore := (ksRemove st.keystore key).2, ttl := ttl2 }
      | none => st
    else st

/-- One cycle of the expiration sweeper (the body between two sleeps). -/
def sweepCycle (now : Nat) (st : State) : State :=
  sweepStep now (st.ttl.length + 1) st

/-- A sample wire value exercising every constructor (including a bulk
string containing CRLF and an empty string), used to evaluate the
round-trip property at a concrete input. -/
def sampleWire : RedisType :=
  .Array [.String ('h' :: 'i' :: []), .Integer (-42), .NullString,
    .String ('a' :: '\r' :: '\n' :: 'b' :: []), .String [],
    .Error ('E' :: 'R' :: 'R' :: ' ' :: 'x' :: []), .NullArray,
    .Array [.Integer 7]]

/-! ## Helper lemmas about the command handlers -/

theorem setnx_ttl_eq (st : State) (args : List RedisType) : (setnx st args).2.ttl = st.ttl := by
  unfold setnx
  repeat' split
  all_goals rfl

theorem getset_ttl_eq (st : State) (args : List RedisType) : (getset st args).2.ttl = st.ttl := by
  unfold getset
  repeat' split
  all_goals first | rfl | (dsimp only; split <;> rfl)

theorem append_ttl_eq (st : State) (args : List RedisType) : (append st args).2.ttl = st.ttl := by
  unfold append
  repeat' split
  all_goals first | rfl | (dsimp only; split <;> rfl)

theorem msetLoop_ttl_eq (st : State) (l : List RedisType) : (msetLoop st l).2.ttl = st.ttl := by
  induction st, l using msetLoop.induct with
  | _ => first
    | rfl
    | (unfold msetLoop; repeat' split; all_goals (first | rfl | simp_all))

theorem mset_ttl_eq (st : State) (args : List RedisType) : (mset st args).2.ttl = st.ttl := by
  unfold mset
  split
  · rfl
  · exact msetLoop_ttl_eq st args

theorem msetnxInsert_ttl_eq (st : State) (l : List RedisType) :
    (msetnxInsert st l).2.ttl = st.ttl := by
  induction st, l using msetnxInsert.induct with
  | _ => first
    | rfl
    | (unfold msetnxInsert; repeat' split; all_goals (first | rfl | simp_all))

theorem msetnx_ttl_eq (st : State) (args : List RedisType) : (msetnx st args).2.ttl = st.ttl := by
  unfold msetnx
  split
  · rfl
  · split
    · rfl
    · rfl
    · exact msetnxInsert_ttl_eq st args

theorem setCmd_cons_opts (now : Nat) (st : State) (k v : List Char)
    (opts : List RedisType) :
    setCmd now st (.String k :: .String v :: opts) =
      match setLoop now opts false false false false none with
      | .err e => (.err e, st)
      | .crash => (.crash, st)
      | .ok nx xx keepttl get expiration => setFinish st k v nx xx keepttl get expiration := by
  unfold setCmd
  rw [if_neg (by simp only [List.length_cons]; omega)]
  rfl

theorem setFinish_nx_some (st : State) (k v : List Char) (t : Nat)
    (h : ksContains st.keystore k = true) :
    setFinish st k v true false false false (some t)
      = (.ok .NullString, ⟨st.keystore, pqPush st.ttl k t⟩) := by
  unfold setFinish
  simp only [Bool.and_false, Bool.false_and, Bool.and_true, Bool.true_and, Option.isSome_some,
    Bool.false_eq_true, if_false, h, if_true]

theorem setFinish_nx_none (st : State) (k v : List Char)
    (h : ksContains st.keystore k = true) :
    setFinish st k v true false false false none
      = (.ok .NullString, ⟨st.keystore, pqRemoveKey st.ttl k⟩) := by
  unfold setFinish
  simp only [Bool.and_false, Bool.false_and, Bool.and_true, Bool.true_and, Option.isSome_none,
    Bool.false_eq_true, if_false, h, if_true]

theorem setFinish_xx_some (st : State) (k v : List Char) (t : Nat)
    (h : ksContains st.keystore k = false) :
    setFinish st k v false true false false (some t)
      = (.ok .NullString, ⟨st.keystore, pqPush st.ttl k t⟩) := by
  unfold setFinish
  simp only [Bool.and_false, Bool.false_and, Bool.and_true, Bool.true_and, Option.isSome_some,
    Bool.false_eq_true, if_false, h, Bool.not_false, if_true]

theorem setFinish_xx_none (st : State) (k v : List Char)
    (h : ksContains st.keystore k = false) :
    setFinish st k v false true false false none
      = (.ok .NullString, ⟨st.keystore, pqRemoveKey st.ttl k⟩) := by
  unfold setFinish
  simp only [Bool.and_false, Bool.false_and, Bool.and_true, Bool.true_and, Option.isSome_none,
    Bool.false_eq_true, if_false, h, Bool.not_false, if_true]

theorem expiryInstant_ex_neg_overflow (now : Nat) :
    expiryInstant now ("EX".data) (-1) = none := by
  unfold expiryInstant sysTimeAdd
  rw [if_pos rfl, if_neg]
  intro hcontra
  have : asU64 (-1) = 2 ^ 64 - 1 := by decide
  omega

theorem setCmd_ex_overflow_crash (now : Nat) (st : State) (k v : List Char) (secs : Int)
    (h : expiryInstant now ("EX".data) secs = none) :
    setCmd now st [.String k, .String v, .String ("NX".data), .String ("EX".data),
        .Integer secs]
      = (.crash, st) := by
  rw [setCmd_cons_opts,
    show setLoop now [RedisType.String ("NX".data), RedisType.String ("EX".data),
      RedisType.Integer secs] false false false false none
      = (match expiryInstant now ("EX".data) secs with
        | some t2 => setLoop now [] true false false false (some t2)
        | none => SetOpts.crash) from rfl,
    h]

theorem setCmd_ex_neg_one_crash (now : Nat) (st : State) (k v : List Char) :
    setCmd now st [.String k, .String v, .String ("NX".data), .String ("EX".data),
        .Integer (-1)]
      = (.crash, st) :=
  setCmd_ex_overflow_crash now st k v (-1) (expiryInstant_ex_neg_overflow now)

/-! ## Claim theorems -/

/-- C1: the claim states that GETEX leaves the key's value entry in the
keystore present and unchanged.  The source instead calls
`state.keystore.remove(&key)` (the body of GETDEL) to produce the
reply, so a plain `GETEX k` on a key holding `v` replies `v` but
DELETES the key: afterwards the keystore no longer contains it.  This
contradicts the handler's own help text ("Get the value of key and set
its expiration time") and duplicates GETDEL, so it is a slip in the
code, not in the claim. -/
theorem c1_getex_deletes_value_entry :
    getex 0 ⟨[("k".data, "v".data)], []⟩ [.String ("k".data)]
      = (.ok (.String ("v".data)), ⟨[], []⟩) ∧
    ksContains
      (getex 0 ⟨[("k".data, "v".data)], []⟩ [.String ("k".data)]).2.keystore ("k".data)
      = false :=
  ⟨rfl, rfl⟩

/-- C2: the claim states the expiration index is min-ordered and that
after a sweeper cycle at time `now` no entry with instant strictly
before `now` remains.  The source uses the priority_queue crate, a
MAX-priority queue: `peek`/`pop` yield the LATEST instant.  On the
state with entries (a ↦ 1) and (b ↦ 10) at now = 5, `peek` returns
(b, 10), the cycle stops immediately, and the overdue entry (a, 1)
and the key "a" both survive — the inner loop's early exit only makes
sense min-ordered, so the queue polarity is a slip in the code. -/
theorem c2_sweeper_peeks_max_not_min :
    pqPeek [("a".data, 1), ("b".data, 10)] = some ("b".data, 10) ∧
    sweepCycle 5 ⟨[("a".data, "x".data), ("b".data, "y".data)], [("a".data, 1), ("b".data, 10)]⟩
      = ⟨[("a".data, "x".data), ("b".data, "y".data)], [("a".data, 1), ("b".data, 10)]⟩ ∧
    ksContains
      (sweepCycle 5
        ⟨[("a".data, "x".data), ("b".data, "y".data)],
         [("a".data, 1), ("b".data, 10)]⟩).keystore ("a".data) = true :=
  ⟨rfl, rfl, rfl⟩

/-- C3 counterexample: GETSET overwrites a key without any TTL
directive, yet the key's expiration entry survives, refuting the claim
that every such command clears it. -/
theorem c3_getset_keeps_expiration_entry :
    getset ⟨[("k".data, "old".data)], [("k".data, 777)]⟩
        [.String ("k".data), .String ("new".data)]
      = (.ok (.String ("old".data)),
         ⟨[("k".data, "new".data)], [("k".data, 777)]⟩) :=
  rfl

/-- C3 amended: among the commands the claim names, only bare `SET`
(without an expiry clause and without KEEPTTL) clears the key's
expiration entry; `SETNX`, `GETSET`, `MSET`, `MSETNX` and `APPEND`
never touch the expiration index at all. -/
theorem c3_only_bare_set_clears_expiration (st : State) (args : List RedisType)
    (now : Nat) (k v : List Char) :
    (setnx st args).2.ttl = st.ttl ∧
    (getset st args).2.ttl = st.ttl ∧
    (append st args).2.ttl = st.ttl ∧
    (mset st args).2.ttl = st.ttl ∧
    (msetnx st args).2.ttl = st.ttl ∧
    (setCmd now st [.String k, .String v]).2
      = { keystore := ksInsert st.keystore k v, ttl := pqRemoveKey st.ttl k } :=
  ⟨setnx_ttl_eq st args, getset_ttl_eq st args, append_ttl_eq st args,
   mset_ttl_eq st args, msetnx_ttl_eq st args, rfl⟩

/-- C5 counterexample: with the key "k" holding "old", `SET k new NX
GET` aborts and replies the null string, not the prior value "old",
refuting the claim that the prior value is returned even when NX/XX
aborts the write. -/
theorem c5_set_nx_get_abort_returns_null :
    (setCmd 0 ⟨[("k".data, "old".data)], []⟩
        [.String ("k".data), .String ("new".data),
         .String ("NX".data), .String ("GET".data)]).1 = .ok .NullString ∧
    ksGet [("k".data, "old".data)] ("k".data) = some ("old".data) ∧
    HOut.ok RedisType.NullString ≠ HOut.ok (.String ("old".data)) :=
  ⟨rfl, rfl, by simp⟩

/-- C5 amended: with GET, the reply is the key's prior value (or the
null string) when the write proceeds; when NX or XX aborts the write,
the reply is the null string regardless of GET. -/
theorem c5_set_get_reply (now : Nat) (st : State) (k v : List Char) :
    ((setCmd now st [.String k, .String v, .String ("GET".data)]).1 =
      match ksGet st.keystore k with
      | some old => HOut.ok (.String old)
      | none => HOut.ok .NullString) ∧
    (ksContains st.keystore k = true →
      (setCmd now st [.String k, .String v,
        .String ("NX".data), .String ("GET".data)]).1 = .ok .NullString) ∧
    (ksContains st.keystore k = false →
      (setCmd now st [.String k, .String v,
        .String ("XX".data), .String ("GET".data)]).1 = .ok .NullString) := by
  refine ⟨rfl, fun h => ?_, fun h => ?_⟩
  · show (setFinish st k v true false false true none).1 = .ok .NullString
    unfold setFinish
    simp only [Bool.and_false, Bool.true_and, Option.isSome_none, Bool.false_eq_true, if_false, h,
      if_true]
  · show (setFinish st k v false true false true none).1 = .ok .NullString
    unfold setFinish
    simp only [Bool.and_false, Bool.false_and, Bool.true_and, Option.isSome_none,
      Bool.false_eq_true, if_false, h, Bool.not_false, if_true]

/-- C5 witness: the amended theorem applied at concrete states, with
the hypotheses discharged by evaluation. -/
theorem c5_set_get_reply_witness :
    ksContains [("k".data, "old".data)] ("k".data) = true ∧
    (setCmd 0 ⟨[("k".data, "old".data)], []⟩
      [.String ("k".data), .String ("v".data),
       .String ("NX".data), .String ("GET".data)]).1 = .ok .NullString ∧
    ksContains ([] : List (List Char × List Char)) ("k".data) = false ∧
    (setCmd 0 ⟨[], []⟩
      [.String ("k".data), .String ("v".data),
       .String ("XX".data), .String ("GET".data)]).1 = .ok .NullString :=
  ⟨rfl,
   (c5_set_get_reply 0 ⟨[("k".data, "old".data)], []⟩ ("k".data) ("v".data)).2.1 rfl,
   rfl,
   (c5_set_get_reply 0 ⟨[], []⟩ ("k".data) ("v".data)).2.2 rfl⟩

/-- C6: the claim (the spec's mandated behavior) requires an Error
reply and an unchanged stored value on 64-bit overflow.  The source
performs native `i64` arithmetic: in release builds `INCR` on the
maximum value wraps to the minimum (and `DECR` on the minimum wraps to
the maximum), storing the wrapped value and replying with an Integer,
not an Error; in debug builds the same inputs abort the process. -/
theorem c6_incr_decr_overflow_wraps :
    incr ⟨[("k".data, "9223372036854775807".data)], []⟩ [.String ("k".data)]
      = (.ok (.Integer (-9223372036854775808)),
         ⟨[("k".data, "-9223372036854775808".data)], []⟩) ∧
    decr ⟨[("k".data, "-9223372036854775808".data)], []⟩ [.String ("k".data)]
      = (.ok (.Integer 9223372036854775807),
         ⟨[("k".data, "9223372036854775807".data)], []⟩) :=
  ⟨rfl, rfl⟩

/-- C7: the claim (and the spec's worked example) makes GETRANGE return
the inclusive substring, so `GETRANGE k -5 100` on "Hello" should be
"Hello".  The source clamps both indices into `[0, len - 1]` (an
inclusive-style clamp) but then slices `value[start..end]`, which
EXCLUDES `end`: the command returns "Hell" and can never produce the
last character of the value.  The second spec example (`3 1` giving "")
does hold.  The inconsistent clamp/slice pair is a slip in the code. -/
theorem c7_getrange_excludes_end :
    getrange ⟨[("k".data, "Hello".data)], []⟩
        [.String ("k".data), .Integer (-5), .Integer 100]
      = (.ok (.String ("Hell".data)), ⟨[("k".data, "Hello".data)], []⟩) ∧
    getrange ⟨[("k".data, "Hello".data)], []⟩
        [.String ("k".data), .Integer 3, .Integer 1]
      = (.ok (.String []), ⟨[("k".data, "Hello".data)], []⟩) :=
  ⟨rfl, rfl⟩

/-- C8: the claim (and the spec) makes a malformed `:payload` decimal a
parse failure.  The source instead calls
`String::from(payload).parse::<i64>().unwrap()` — the `unwrap` panics
on the malformed payload ":abc\r\n" (the adjacent TODO comment
acknowledges the missing error handling), so the parser crashes rather
than returning an error value. -/
theorem c8_integer_parse_crash :
    fromStr (":abc\r\n".data) = .crash :=
  rfl

/-- C9: when `SET` aborts under NX (key exists) or XX (key absent), the
keystore is untouched and the reply is the null string, but the
expiration index has already been updated: an expiry clause whose time
arithmetic succeeds (`expiryInstant … = some t`; an overflowing clause
such as `EX -1` instead panics inside `get_expiration!` before any
mutation or reply, see `setCmd_ex_overflow_crash`) has pushed its
instant `t` for the key, and the bare form (no clause, no KEEPTTL) has
removed the key's entry. -/
theorem c9_set_abort_mutates_ttl (now : Nat) (st : State) (k v : List Char) (secs : Int) :
    (ksContains st.keystore k = true →
      (∀ t, expiryInstant now ("EX".data) secs = some t →
        setCmd now st [.String k, .String v, .String ("NX".data), .String ("EX".data),
            .Integer secs]
          = (.ok .NullString, ⟨st.keystore, pqPush st.ttl k t⟩)) ∧
      (∀ t, expiryInstant now ("PX".data) secs = some t →
        setCmd now st [.String k, .String v, .String ("NX".data), .String ("PX".data),
            .Integer secs]
          = (.ok .NullString, ⟨st.keystore, pqPush st.ttl k t⟩)) ∧
      (∀ t, expiryInstant now ("EXAT".data) secs = some t →
        setCmd now st [.String k, .String v, .String ("NX".data), .String ("EXAT".data),
            .Integer secs]
          = (.ok .NullString, ⟨st.keystore, pqPush st.ttl k t⟩)) ∧
      (∀ t, expiryInstant now ("PXAT".data) secs = some t →
        setCmd now st [.String k, .String v, .String ("NX".data), .String ("PXAT".data),
            .Integer secs]
          = (.ok .NullString, ⟨st.keystore, pqPush st.ttl k t⟩)) ∧
      setCmd now st [.String k, .String v, .String ("NX".data)]
        = (.ok .NullString, ⟨st.keystore, pqRemoveKey st.ttl k⟩)) ∧
    (ksContains st.keystore k = false →
      (∀ t, expiryInstant now ("EX".data) secs = some t →
        setCmd now st [.String k, .String v, .String ("XX".data), .String ("EX".data),
            .Integer secs]
          = (.ok .NullString, ⟨st.keystore, pqPush st.ttl k t⟩)) ∧
      setCmd now st [.String k, .String v, .String ("XX".data)]
        = (.ok .NullString, ⟨st.keystore, pqRemoveKey st.ttl k⟩)) := by
  constructor
  · intro h
    refine ⟨?_, ?_, ?_, ?_, ?_⟩
    · intro t ht
      rw [setCmd_cons_opts,
        show setLoop now [RedisType.String ("NX".data), RedisType.String ("EX".data),
          RedisType.Integer secs] false false false false none
          = (match expiryInstant now ("EX".data) secs with
            | some t2 => setLoop now [] true false false false (some t2)
            | none => SetOpts.crash) from rfl,
        ht]
      exact setFinish_nx_some st k v t h
    · intro t ht
      rw [setCmd_cons_opts,
        show setLoop now [RedisType.String ("NX".data), RedisType.String ("PX".data),
          RedisType.Integer secs] false false false false none
          = (match expiryInstant now ("PX".data) secs with
            | some t2 => setLoop now [] true false false false (some t2)
            | none => SetOpts.crash) from rfl,
        ht]
      exact setFinish_nx_some st k v t h
    · intro t ht
      rw [setCmd_cons_opts,
        show setLoop now [RedisType.String ("NX".data), RedisType.String ("EXAT".data),
          RedisType.Integer secs] false false false false none
          = (match expiryInstant now ("EXAT".data) secs with
            | some t2 => setLoop now [] true false false false (some t2)
            | none => SetOpts.crash) from rfl,
        ht]
      exact setFinish_nx_some st k v t h
    · intro t ht
      rw [setCmd_cons_opts,
        show setLoop now [RedisType.String ("NX".data), RedisType.String ("PXAT".data),
          RedisType.Integer secs] false false false false none
          = (match expiryInstant now ("PXAT".data) secs with
            | some t2 => setLoop now [] true false false false (some t2)
            | none => SetOpts.crash) from rfl,
        ht]
      exact setFinish_nx_some st k v t h
    · rw [setCmd_cons_opts,
        show setLoop now [RedisType.String ("NX".data)] false false false false none
          = SetOpts.ok true false false false none from rfl]
      exact setFinish_nx_none st k v h
  · intro h
    refine ⟨?_, ?_⟩
    · intro t ht
      rw [setCmd_cons_opts,
        show setLoop now [RedisType.String ("XX".data), RedisType.String ("EX".data),
          RedisType.Integer secs] false false false false none
          = (match expiryInstant now ("EX".data) secs with
            | some t2 => setLoop now [] false true false false (some t2)
            | none => SetOpts.crash) from rfl,
        ht]
      exact setFinish_xx_some st k v t h
    · rw [setCmd_cons_opts,
        show setLoop now [RedisType.String ("XX".data)] false false false false none
          = SetOpts.ok false true false false none from rfl]
      exact setFinish_xx_none st k v h

/-- C9 witness: the theorem applied at concrete states, with the
hypotheses (key presence and a non-overflowing expiry addition)
discharged by evaluation. -/
theorem c9_set_abort_mutates_ttl_witness :
    ksContains [("k".data, "v0".data)] ("k".data) = true ∧
    expiryInstant 1000 ("EX".data) 7 = some 8000 ∧
    setCmd 1000 ⟨[("k".data, "v0".data)], [("k".data, 123)]⟩
        [.String ("k".data), .String ("v".data), .String ("NX".data), .String ("EX".data),
         .Integer 7]
      = (.ok .NullString, ⟨[("k".data, "v0".data)], [("k".data, 8000)]⟩) ∧
    ksContains ([] : List (List Char × List Char)) ("q".data) = false ∧
    setCmd 1000 ⟨[], [("q".data, 123)]⟩
        [.String ("q".data), .String ("v".data), .String ("XX".data)]
      = (.ok .NullString, ⟨[], []⟩) := by
  refine ⟨rfl, rfl, ?_, rfl, ?_⟩
  · have h := ((c9_set_abort_mutates_ttl 1000 ⟨[("k".data, "v0".data)], [("k".data, 123)]⟩
      ("k".data) ("v".data) 7).1 rfl).1 8000 rfl
    rw [h]
    rfl
  · have h := ((c9_set_abort_mutates_ttl 1000 ⟨[], [("q".data, 123)]⟩
      ("q".data) ("v".data) 7).2 rfl).2
    rw [h]
    rfl

/-- C10: GETRANGE on a key absent from the keystore replies the
distinguished null string (not the empty string), whatever the start
and end arguments are. -/
theorem c10_getrange_absent_key_null (st : State) (k : List Char) (s e : Int)
    (h : ksGet st.keystore k = none) :
    getrange st [.String k, .Integer s, .Integer e] = (.ok .NullString, st) := by
  show (match ksGet st.keystore k with
    | some value =>
      let len : Int := value.length
      let start1 := min (max s 0) (len - 1)
      let stop1 := min (max e 0) (len - 1)
      if start1 > stop1 then (HOut.ok (.String []), st)
      else if start1 < 0 then (HOut.crash, st)
      else
        (HOut.ok (.String ((value.drop start1.toNat).take (stop1 - start1).toNat)), st)
    | none => (HOut.ok .NullString, st)) = (.ok .NullString, st)
  rw [h]

/-- C10 witness: the theorem applied at the empty store. -/
theorem c10_getrange_absent_key_null_witness :
    ksGet ([] : List (List Char × List Char)) ("k".data) = none ∧
    getrange ⟨[], []⟩ [.String ("k".data), .Integer 3, .Integer 9]
      = (.ok .NullString, ⟨[], []⟩) :=
  ⟨rfl, c10_getrange_absent_key_null ⟨[], []⟩ ("k".data) 3 9 rfl⟩

/-! ## Codec lemmas for the round-trip property -/

theorem splitCrlf_eq_none_of_no_lf (a : List Char) (h : ∀ c ∈ a, c ≠ '\n') :
    splitCrlf a = none := by
  induction a with
  | nil => rfl
  | cons c rest ih =>
    have hrest := ih (fun d hd => h d (List.mem_cons_of_mem c hd))
    unfold splitCrlf
    rw [if_neg, hrest]
    · rfl
    · rintro ⟨hc, hh⟩
      cases rest with
      | nil => simp at hh
      | cons d r2 =>
        simp only [List.head?_cons, Option.some.injEq] at hh
        exact h d (by simp) hh

theorem splitCrlf_cons_none (c : Char) (rest : List Char) (hc : c ≠ '\r')
    (h : splitCrlf rest = none) : splitCrlf (c :: rest) = none := by
  unfold splitCrlf
  rw [if_neg (by rintro ⟨h1, _⟩; exact hc h1), h]
  rfl

theorem splitCrlf_append (a b : List Char) (h : splitCrlf a = none) :
    splitCrlf (a ++ '\r' :: '\n' :: b) = some (a, b) := by
  induction a with
  | nil =>
    rw [List.nil_append]
    unfold splitCrlf
    rw [if_pos ⟨rfl, rfl⟩]
    rfl
  | cons c t ih =>
    have hsplit : ¬(c = '\r' ∧ t.head? = some '\n') ∧ splitCrlf t = none := by
      by_cases hcond : c = '\r' ∧ t.head? = some '\n'
      · unfold splitCrlf at h
        rw [if_pos hcond] at h
        exact absurd h (by simp)
      · unfold splitCrlf at h
        rw [if_neg hcond] at h
        exact ⟨hcond, Option.map_eq_none.mp h⟩
    show splitCrlf (c :: (t ++ '\r' :: '\n' :: b)) = some (c :: t, b)
    unfold splitCrlf
    rw [if_neg, ih hsplit.2]
    · rfl
    · rintro ⟨hc, hh⟩
      cases t with
      | nil => simp at hh
      | cons d r2 =>
        simp only [List.cons_append, List.head?_cons, Option.some.injEq] at hh
        exact hsplit.1 ⟨hc, by simp [hh]⟩

theorem isDigitChar_digitChar (d : Nat) : isDigitChar (digitChar d) = true := by
  rcases d with _|_|_|_|_|_|_|_|_|d <;> rfl

theorem digitChar_val (d : Nat) (h : d < 10) : (digitChar d).toNat - 48 = d := by
  rcases d with _|_|_|_|_|_|_|_|_|_|d <;> first | rfl | omega

theorem ne_of_isDigitChar (c : Char) (h : isDigitChar c = true) :
    c ≠ '\n' ∧ c ≠ '\r' ∧ c ≠ '-' ∧ c ≠ '+' := by
  refine ⟨?_, ?_, ?_, ?_⟩ <;> (intro he; subst he; exact absurd h (by decide))

theorem natReprAux_digits (fuel : Nat) :
    ∀ n c, c ∈ natReprAux fuel n → isDigitChar c = true := by
  induction fuel with
  | zero => intro n c hc; simp [natReprAux] at hc
  | succ f ih =>
    intro n c hc
    unfold natReprAux at hc
    split at hc
    · simp only [List.mem_singleton] at hc
      subst hc
      exact isDigitChar_digitChar n
    · rcases List.mem_append.mp hc with h1 | h2
      · exact ih (n / 10) c h1
      · simp only [List.mem_singleton] at h2
        subst h2
        exact isDigitChar_digitChar (n % 10)

theorem natReprAux_ne_nil (fuel n : Nat) (h : n < fuel) : natReprAux fuel n ≠ [] := by
  cases fuel with
  | zero => omega
  | succ f =>
    unfold natReprAux
    split
    · simp
    · simp

theorem digitsVal_append (a b : List Char) :
    ∀ acc, digitsVal (a ++ b) acc =
      match digitsVal a acc with
      | some m => digitsVal b m
      | none => none := by
  induction a with
  | nil => intro acc; rfl
  | cons c t ih =>
    intro acc
    simp only [List.cons_append, digitsVal]
    by_cases hc : isDigitChar c = true
    · rw [if_pos hc, if_pos hc]
      exact ih _
    · rw [if_neg hc, if_neg hc]

theorem digitsVal_natReprAux (fuel : Nat) :
    ∀ n acc, n < fuel →
      digitsVal (natReprAux fuel n) acc =
        some (acc * 10 ^ (natReprAux fuel n).length + n) := by
  induction fuel with
  | zero => intro n acc h; omega
  | succ f ih =>
    intro n acc h
    by_cases h10 : n < 10
    · unfold natReprAux
      rw [if_pos h10]
      unfold digitsVal
      rw [if_pos (isDigitChar_digitChar n)]
      unfold digitsVal
      rw [digitChar_val n h10]
      norm_num
    · unfold natReprAux
      rw [if_neg h10]
      have hdiv : n / 10 < f := by
        have h1 : n / 10 < n := Nat.div_lt_self (by omega) (by omega)
        omega
      rw [digitsVal_append]
      rw [ih (n / 10) acc hdiv]
      unfold digitsVal
      rw [if_pos (isDigitChar_digitChar (n % 10))]
      unfold digitsVal
      rw [digitChar_val (n % 10) (Nat.mod_lt n (by omega))]
      rw [List.length_append, List.length_singleton]
      have : acc * 10 ^ ((natReprAux f (n / 10)).length + 1) + n
        = (acc * 10 ^ (natReprAux f (n / 10)).length + n / 10) * 10 + n % 10 := by
        rw [pow_succ]
        have := Nat.div_add_mod n 10
        ring_nf
        omega
      rw [this]

theorem digitsVal_natRepr (n : Nat) : digitsVal (natRepr n) 0 = some n := by
  unfold natRepr
  rw [digitsVal_natReprAux (n + 1) n 0 (by omega)]
  norm_num

theorem natRepr_ne_nil (n : Nat) : natRepr n ≠ [] :=
  natReprAux_ne_nil (n + 1) n (by omega)

theorem natRepr_digits (n : Nat) (c : Char) (hc : c ∈ natRepr n) : isDigitChar c = true :=
  natReprAux_digits (n + 1) n c hc

theorem parseDigitsSigned_natRepr_pos (n : Nat) (h : n ≤ 2 ^ 63 - 1) :
    parseDigitsSigned (natRepr n) false = some (n : Int) := by
  unfold parseDigitsSigned
  rw [if_neg (by simpa using natRepr_ne_nil n), digitsVal_natRepr]
  have h9 : n ≤ 9223372036854775807 := by omega
  simp [h9]

theorem parseI64_natRepr (n : Nat) (h : n ≤ 2 ^ 63 - 1) :
    parseI64 (natRepr n) = some (n : Int) := by
  rcases hnr : natRepr n with _ | ⟨c, t⟩
  · exact absurd hnr (natRepr_ne_nil n)
  · have hdig : isDigitChar c = true := natRepr_digits n c (by rw [hnr]; simp)
    have hne := ne_of_isDigitChar c hdig
    show (if c = '-' then parseDigitsSigned t true
      else if c = '+' then parseDigitsSigned t false
      else parseDigitsSigned (c :: t) false) = some (n : Int)
    rw [if_neg hne.2.2.1, if_neg hne.2.2.2, ← hnr]
    exact parseDigitsSigned_natRepr_pos n h

theorem parseI64_intRepr (n : Int) (h1 : -(2 ^ 63) ≤ n) (h2 : n < 2 ^ 63) :
    parseI64 (intRepr n) = some n := by
  unfold intRepr
  by_cases hneg : n < 0
  · rw [if_pos hneg]
    show parseDigitsSigned (natRepr (-n).toNat) true = some n
    unfold parseDigitsSigned
    rw [if_neg (by simpa using natRepr_ne_nil (-n).toNat), digitsVal_natRepr]
    have hle : (-n).toNat ≤ 2 ^ 63 := by omega
    show (if (-n).toNat ≤ 2 ^ 63 then some (-(((-n).toNat : Nat) : Int)) else none) = some n
    rw [if_pos hle]
    congr 1
    omega
  · rw [if_neg hneg]
    rw [parseI64_natRepr n.toNat (by omega)]
    congr 1
    omega

theorem natRepr_no_lf (n : Nat) (c : Char) (hc : c ∈ natRepr n) : c ≠ '\n' :=
  (ne_of_isDigitChar c (natRepr_digits n c hc)).1

theorem intRepr_no_lf (n : Int) (c : Char) (hc : c ∈ intRepr n) : c ≠ '\n' := by
  unfold intRepr at hc
  split at hc
  · rcases List.mem_cons.mp hc with h | h
    · subst h; decide
    · exact natRepr_no_lf _ c h
  · exact natRepr_no_lf _ c hc

theorem serialize_length_pos (b : Bool) (v : RedisType) : 0 < (serialize b v).length := by
  cases v <;> unfold serialize <;> (repeat' split) <;> simp

theorem serializeList_mem_le (b : Bool) (v : RedisType) (vs : List RedisType)
    (hm : v ∈ vs) : (serialize b v).length ≤ (serializeList b vs).length := by
  induction vs with
  | nil => simp at hm
  | cons w ws ih =>
    rcases List.mem_cons.mp hm with h | h
    · subst h
      unfold serializeList
      simp
    · calc (serialize b v).length ≤ (serializeList b ws).length := ih h
        _ ≤ (serializeList b (w :: ws)).length := by
            show (serializeList b ws).length ≤ (serialize b w ++ serializeList b ws).length
            simp

theorem wfList_mem (vs : List RedisType) (v : RedisType) (hw : wfList vs = true)
    (hm : v ∈ vs) : wfWire v = true := by
  induction vs with
  | nil => simp at hm
  | cons w ws ih =>
    simp only [wfList, Bool.and_eq_true] at hw
    rcases List.mem_cons.mp hm with h | h
    · subst h; exact hw.1
    · exact ih hw.2 h

theorem errNoCrlfList_mem (vs : List RedisType) (v : RedisType)
    (hw : errNoCrlfList vs = true) (hm : v ∈ vs) : errNoCrlf v = true := by
  induction vs with
  | nil => simp at hm
  | cons w ws ih =>
    simp only [errNoCrlfList, Bool.and_eq_true] at hw
    rcases List.mem_cons.mp hm with h | h
    · subst h; exact hw.1
    · exact ih hw.2 h

theorem needsBulk_no_lf (v : List Char) (h : needsBulk v = false) :
    ∀ c ∈ v, c ≠ '\n' := by
  intro c hc
  unfold needsBulk at h
  rw [List.any_eq_false] at h
  have := h c hc
  simp only [Bool.or_eq_false_iff] at this
  intro he
  subst he
  simp at this

theorem parseAux_of_splitCrlf (f : Nat) (s c : _) (payload rest : List Char) (hne : s ≠ [])
    (hsp : splitCrlf s = some (c :: payload, rest)) :
    parseAux (f + 1) s = parseLine (parseAux f) c payload rest := by
  unfold parseAux
  rw [if_neg (by simpa using hne), hsp]

theorem parseElems_serializeList (f : Nat)
    (ih : ∀ v k, wfWire v = true → errNoCrlf v = true → (serialize false v).length ≤ f →
      parseAux f (serialize false v ++ k) = .ok k v)
    (vs : List RedisType)
    (hwf : ∀ w ∈ vs, wfWire w = true) (hec : ∀ w ∈ vs, errNoCrlf w = true)
    (hle : ∀ w ∈ vs, (serialize false w).length ≤ f) :
    ∀ k, parseElemsWith (parseAux f) vs.length (serializeList false vs ++ k) = .elOk k vs := by
  induction vs with
  | nil => intro k; rfl
  | cons w ws ihl =>
    intro k
    show parseElemsWith (parseAux f) (ws.length + 1) (serializeList false (w :: ws) ++ k)
      = .elOk k (w :: ws)
    have hs : serializeList false (w :: ws) ++ k
        = serialize false w ++ (serializeList false ws ++ k) := by
      show (serialize false w ++ serializeList false ws) ++ k = _
      rw [List.append_assoc]
    rw [hs]
    unfold parseElemsWith
    rw [ih w (serializeList false ws ++ k) (hwf w (by simp)) (hec w (by simp)) (hle w (by simp))]
    dsimp only
    rw [ihl (fun u hu => hwf u (by simp [hu])) (fun u hu => hec u (by simp [hu]))
      (fun u hu => hle u (by simp [hu])) k]

theorem parseAux_serialize (fuel : Nat) :
    ∀ v k, wfWire v = true → errNoCrlf v = true →
      (serialize false v).length ≤ fuel →
      parseAux fuel (serialize false v ++ k) = .ok k v := by
  induction fuel with
  | zero =>
    intro v k _ _ hlen
    have := serialize_length_pos false v
    omega
  | succ f ih =>
    intro v k hwf hec hlen
    cases v with
    | NullString => rfl
    | NullArray => rfl
    | Integer n =>
      have hr : -(2 ^ 63) ≤ n ∧ n < 2 ^ 63 := by simpa [wfWire] using hwf
      have hnone : splitCrlf (':' :: intRepr n) = none :=
        splitCrlf_eq_none_of_no_lf _ (by
          intro c hc
          rcases List.mem_cons.mp hc with h | h
          · subst h; decide
          · exact intRepr_no_lf n c h)
      have hs : serialize false (.Integer n) ++ k
          = (':' :: intRepr n) ++ ('\r' :: '\n' :: k) := by
        show ((':' :: intRepr n) ++ crlf) ++ k = _
        rw [List.append_assoc]
        rfl
      rw [hs, parseAux_of_splitCrlf f _ ':' (intRepr n) k (by simp)
        (splitCrlf_append _ k hnone)]
      unfold parseLine
      rw [if_neg (by decide), if_neg (by decide), if_pos rfl, parseI64_intRepr n hr.1 hr.2]
    | Error ev =>
      have hnone : splitCrlf ('-' :: ev) = none :=
        splitCrlf_cons_none '-' ev (by decide)
          (by simpa [errNoCrlf, Option.isNone_iff_eq_none] using hec)
      have hs : serialize false (.Error ev) ++ k
          = ('-' :: ev) ++ ('\r' :: '\n' :: k) := by
        show (('-' :: ev) ++ crlf) ++ k = _
        rw [List.append_assoc]
        rfl
      rw [hs, parseAux_of_splitCrlf f _ '-' ev k (by simp) (splitCrlf_append _ k hnone)]
      unfold parseLine
      rw [if_neg (by decide), if_pos rfl]
    | String sv =>
      have hlen63 : sv.length < 2 ^ 63 := by simpa [wfWire] using hwf
      by_cases h0 : sv.length = 0
      · have hnil : sv = [] := List.length_eq_zero.mp h0
        subst hnil
        show parseAux (f + 1) ("$0\r\n\r\n".data ++ k) = .ok k (.String [])
        have hsp : splitCrlf ("$0\r\n\r\n".data ++ k) = some (['$', '0'], '\r' :: '\n' :: k) :=
          splitCrlf_append ['$', '0'] ('\r' :: '\n' :: k) (by decide)
        rw [parseAux_of_splitCrlf f _ '$' ['0'] ('\r' :: '\n' :: k) (by simp) hsp]
        unfold parseLine
        rw [if_neg (by decide), if_neg (by decide), if_neg (by decide), if_neg (by decide),
          if_pos rfl, show parseI64 ['0'] = some 0 from rfl]
        dsimp only
        rw [if_neg (by norm_num), if_pos (by simp)]
        rfl
      · by_cases hb : needsBulk sv = true
        · have hs : serialize false (.String sv) ++ k
              = ('$' :: natRepr sv.length) ++ ('\r' :: '\n' :: (sv ++ ('\r' :: '\n' :: k))) := by
            unfold serialize
            rw [if_neg h0, if_pos (by simp [hb])]
            simp [crlf, List.append_assoc]
          have hnone : splitCrlf ('$' :: natRepr sv.length) = none :=
            splitCrlf_eq_none_of_no_lf _ (by
              intro c hc
              rcases List.mem_cons.mp hc with h | h
              · subst h; decide
              · exact natRepr_no_lf _ c h)
          rw [hs, parseAux_of_splitCrlf f _ '$' (natRepr sv.length) _ (by simp)
            (splitCrlf_append _ _ hnone)]
          unfold parseLine
          rw [if_neg (by decide), if_neg (by decide), if_neg (by decide), if_neg (by decide),
            if_pos rfl, parseI64_natRepr sv.length (by omega)]
          dsimp only
          rw [if_neg (by omega), Int.toNat_natCast]
          rw [if_pos (by simp)]
          have htk : (sv ++ '\r' :: '\n' :: k).take sv.length = sv := by
            rw [List.take_left]
          have hdr : (sv ++ '\r' :: '\n' :: k).drop (sv.length + 2) = k := by
            rw [show sv ++ '\r' :: '\n' :: k = (sv ++ ['\r', '\n']) ++ k from by
              simp [List.append_assoc]]
            rw [List.drop_left' (by simp)]
          rw [htk, hdr]
        · have hbf : needsBulk sv = false := by simpa using hb
          have hs : serialize false (.String sv) ++ k
              = ('+' :: sv) ++ ('\r' :: '\n' :: k) := by
            unfold serialize
            rw [if_neg h0, if_neg (by simp [hbf])]
            simp [crlf, List.append_assoc]
          have hnone : splitCrlf ('+' :: sv) = none :=
            splitCrlf_eq_none_of_no_lf _ (by
              intro c hc
              rcases List.mem_cons.mp hc with h | h
              · subst h; decide
              · exact needsBulk_no_lf sv hbf c h)
          rw [hs, parseAux_of_splitCrlf f _ '+' sv k (by simp) (splitCrlf_append _ k hnone)]
          unfold parseLine
          rw [if_pos rfl]
    | Array vs =>
      have hwf2 : vs.length < 2 ^ 63 ∧ wfList vs = true := by
        simpa [wfWire, Bool.and_eq_true] using hwf
      have hec2 : errNoCrlfList vs = true := by simpa [errNoCrlf] using hec
      have hs : serialize false (.Array vs) ++ k
          = ('*' :: natRepr vs.length) ++ ('\r' :: '\n' :: (serializeList false vs ++ k)) := by
        show (('*' :: natRepr vs.length) ++ crlf ++ serializeList false vs) ++ k = _
        simp [crlf, List.append_assoc]
      have hnone : splitCrlf ('*' :: natRepr vs.length) = none :=
        splitCrlf_eq_none_of_no_lf _ (by
          intro c hc
          rcases List.mem_cons.mp hc with h | h
          · subst h; decide
          · exact natRepr_no_lf _ c h)
      have hle : ∀ w ∈ vs, (serialize false w).length ≤ f := by
        intro w hw
        have h1 := serializeList_mem_le false w vs hw
        have h3 : (serializeList false vs).length + 3 ≤ (serialize false (.Array vs)).length := by
          show (serializeList false vs).length + 3
            ≤ (('*' :: natRepr vs.length) ++ crlf ++ serializeList false vs).length
          simp [crlf]
        omega
      rw [hs, parseAux_of_splitCrlf f _ '*' (natRepr vs.length) _ (by simp)
        (splitCrlf_append _ _ hnone)]
      unfold parseLine
      rw [if_neg (by decide), if_neg (by decide), if_neg (by decide), if_pos rfl,
        parseI64_natRepr vs.length (by omega)]
      dsimp only
      rw [if_neg (by omega), Int.toNat_natCast]
      rw [parseElems_serializeList f ih vs
        (fun w hw => wfList_mem vs w hwf2.2 hw)
        (fun w hw => errNoCrlfList_mem vs w hec2 hw) hle k]

/-- C4 counterexample: the value `Error "a\r\nb"` (a legal value of the
Rust types) does not round-trip: it serializes to `-a\r\nb\r\n`, whose
parse cuts the payload at the embedded CRLF and then fails with
`LeftOverData` on the remaining bytes, so `parse(serialize(v))` is an
error rather than `v`. -/
theorem c4_error_crlf_breaks_roundtrip :
    fromStr (serialize false (.Error ('a' :: '\r' :: '\n' :: 'b' :: []))) = .err .LeftOverData ∧
    wfWire (.Error ('a' :: '\r' :: '\n' :: 'b' :: [])) = true :=
  ⟨rfl, rfl⟩

/-- C4 amended: with the force-bulk-string toggle off, `parse` after
`serialize` recovers every wire value whose integer payloads fit in
`i64` and whose string and array lengths are below `2^63` (both
automatic for values of the Rust types), provided no `Error` payload
contains the CRLF sequence. -/
theorem c4_roundtrip_serialize_parse (v : RedisType)
    (h1 : wfWire v = true) (h2 : errNoCrlf v = true) :
    fromStr (serialize false v) = .ok v := by
  unfold fromStr
  have h := parseAux_serialize ((serialize false v).length + 1) v [] h1 h2 (by omega)
  rw [List.append_nil] at h
  rw [h]
  rfl

/-- C4 witness: the amended round-trip theorem applied to a concrete
value exercising every constructor, hypotheses discharged by
evaluation. -/
theorem c4_roundtrip_serialize_parse_witness :
    wfWire sampleWire = true ∧ errNoCrlf sampleWire = true ∧
    fromStr (serialize false sampleWire) = .ok sampleWire :=
  ⟨by decide, by decide, c4_roundtrip_serialize_parse sampleWire (by decide) (by decide)⟩
